import Mathlib

/-!
Verification development for the `remark-mdx-snippets` repository.

The development shallowly embeds the plugin implemented in `src/unnamed/part_003`
(first document, the current implementation; `src/index.js` is the local-only
variant of the same transformer).  Pure helpers (`getFileExtension`,
`isMarkdownExtension`, `fetchRemoteContent`'s control flow, the code-block
literal, the `Object.assign` splice and the error/warning messages) are
translated directly from the JavaScript source.  The external collaborators —
the filesystem, the network, and the remark/mdx parser — are modelled as an
explicit `World` record of oracle functions, and the transformer's recursion
through freshly parsed sub-documents is made terminating with an explicit fuel
parameter (the JavaScript original simply diverges on cyclic inclusion).

Side effects (console warnings and errors, file reads, network fetches, parse
invocations) are collected in an event list.  Real execution interleaves the
events of concurrently-resolving markers in wall-clock order; the embedding
deterministically concatenates each branch's events in tree order, which is the
only aspect the claims depend on (per-branch event sequences and membership).
-/

/-- Source position of a node (`node.position.start` in the mdast tree). -/
structure MPos where
  line : Nat
  column : Nat
deriving Repr, DecidableEq

/-- An mdx JSX attribute (`{name, value}`).  `value = none` models any value
that is not a plain string (absent, `null`, or an expression object), which is
exactly the distinction `typeof fileAttr.value !== 'string'` draws. -/
structure MAttr where
  name : String
  value : Option String
deriving Repr, DecidableEq

/-- The `value` field of a node.  `vfileObj` records the code-path in
`part_003` line 232 where `snippetFile.value || snippetFile` evaluates to the
whole resolved-file object because the content string is empty (falsy). -/
inductive NodeValue where
  | str (s : String)
  | vfileObj (value : String) (path : String)
deriving Repr, DecidableEq

/-- A document-tree node.  Each field is wrapped in `Option` to record whether
the underlying JavaScript object owns that property at all — `Object.assign`
copies only properties present on the source object, so presence matters for
the splice semantics.  For `name`, `lang` and `meta` the inner `Option` is the
JavaScript `null`. -/
inductive Node where
  | mk (type : String)
       (name : Option (Option String))
       (attributes : Option (List MAttr))
       (children : Option (List Node))
       (value : Option NodeValue)
       (lang : Option (Option String))
       (meta : Option (Option String))
       (position : Option MPos) : Node
deriving Repr

def Node.type : Node → String
  | ⟨t, _, _, _, _, _, _, _⟩ => t

def Node.name : Node → Option (Option String)
  | ⟨_, n, _, _, _, _, _, _⟩ => n

def Node.attributes : Node → Option (List MAttr)
  | ⟨_, _, a, _, _, _, _, _⟩ => a

def Node.children : Node → Option (List Node)
  | ⟨_, _, _, c, _, _, _, _⟩ => c

def Node.value : Node → Option NodeValue
  | ⟨_, _, _, _, v, _, _, _⟩ => v

def Node.lang : Node → Option (Option String)
  | ⟨_, _, _, _, _, l, _, _⟩ => l

def Node.meta : Node → Option (Option String)
  | ⟨_, _, _, _, _, _, m, _⟩ => m

def Node.position : Node → Option MPos
  | ⟨_, _, _, _, _, _, _, p⟩ => p

/-- Replace the children field, keeping every other field. -/
def Node.withChildren : Node → Option (List Node) → Node
  | ⟨t, n, a, _, v, l, m, p⟩, c => ⟨t, n, a, c, v, l, m, p⟩

/-- JavaScript `Object.assign(target, src)` restricted to the modelled fields:
a field of `src` overwrites the corresponding field of `target` exactly when
`src` owns that field (`some _`); otherwise `target` keeps its value.  `type`
is owned by every node we construct, so it is always copied. -/
def fieldAssign (src tgt : Option α) : Option α :=
  match src with
  | some x => some x
  | none => tgt

def objectAssign : Node → Node → Node
  | ⟨_, tn, ta, tc, tv, tl, tm, tp⟩, ⟨st, sn, sa, sc, sv, sl, sm, sp⟩ =>
    ⟨st,
     fieldAssign sn tn,
     fieldAssign sa ta,
     fieldAssign sc tc,
     fieldAssign sv tv,
     fieldAssign sl tl,
     fieldAssign sm tm,
     fieldAssign sp tp⟩

/-- JavaScript `String.prototype.lastIndexOf` for a single character, on the
character list of the string, returning the index of the last occurrence or
`none`. -/
def lastIdx : List Char → Char → Option Nat
  | [], _ => none
  | a :: as, c =>
    match lastIdx as c with
    | some i => some (i + 1)
    | none => if a = c then some 0 else none

/-- JavaScript `lastIndexOf` result as a JS number: `-1` when absent. -/
def jsLastIndexOf (l : List Char) (c : Char) : Int :=
  match lastIdx l c with
  | some i => Int.ofNat i
  | none => -1

/-- Embeds `getFileExtension` (`part_003` lines 47-60): the substring after the
last dot, lowercased, unless there is no dot or the last dot lies before the
last path separator. -/
def getFileExtension (filePath : String) : String :=
  let cs := filePath.data
  let lastDot := jsLastIndexOf cs '.'
  let lastSlash := max (jsLastIndexOf cs '/') (jsLastIndexOf cs '\\')
  if lastDot = -1 ∨ lastDot < lastSlash then ""
  else String.mk ((cs.drop (lastDot.toNat + 1)).map Char.toLower)

/-- Embeds `isMarkdownExtension` (`part_003` lines 67-69). -/
def isMarkdownExtension (extension : String) : Bool :=
  extension == "md" || extension == "mdx"

/-- Is this character one of the path separators the classifier recognises? -/
def isPathSep (c : Char) : Bool :=
  c == '/' || c == '\\'

/-- Spec-side classifier, following the specification's words: the tag is the
substring after the last dot that occurs after the last path separator (no
separator may follow the dot), lowercased; the empty tag when no such dot
exists.  Stated independently of `getFileExtension` so the two can be
compared. -/
def specGoodDot (cs : List Char) (i : Nat) : Bool :=
  decide (cs[i]? = some '.') &&
    ((List.range cs.length).all fun j =>
      decide (j ≤ i) || !(match cs[j]? with
                          | some c => isPathSep c
                          | none => false))

def specExtension (s : String) : String :=
  let cs := s.data
  match ((List.range cs.length).filter (specGoodDot cs)).getLast? with
  | some d => String.mk ((cs.drop (d + 1)).map Char.toLower)
  | none => ""

/-- Case-insensitive string comparison (both sides lowercased characterwise),
used to state the specification's "case-insensitive comparison". -/
def ciEq (a b : String) : Bool :=
  a.data.map Char.toLower == b.data.map Char.toLower

/-- Substring test: does `needle` occur contiguously inside `hay`? -/
def strContains (hay needle : String) : Bool :=
  hay.data.tails.any fun t => needle.data.isPrefixOf t

/-- JavaScript `String.prototype.startsWith`, as a character-list prefix
test. -/
def strStarts (s pre : String) : Bool :=
  pre.data.isPrefixOf s.data

/-- Embeds the `isRemoteFile` test (`part_003` lines 112-114). -/
def isRemoteRef (v : String) : Bool :=
  strStarts v "https://" || strStarts v "http://"

instance {α β : Type} [DecidableEq α] [DecidableEq β] :
    DecidableEq (Except α β) := fun x y =>
  match x, y with
  | .error a, .error b =>
    if h : a = b then .isTrue (by rw [h])
    else .isFalse fun hc => h (Except.error.inj hc)
  | .ok a, .ok b =>
    if h : a = b then .isTrue (by rw [h])
    else .isFalse fun hc => h (Except.ok.inj hc)
  | .error _, .ok _ => .isFalse fun hc => Except.noConfusion hc
  | .ok _, .error _ => .isFalse fun hc => Except.noConfusion hc

/-- Node's `path.join(snippetsDir, reference)`.  The embedding abstracts from
`path.join`'s normalisation of `.`/`..` segments and duplicate separators,
which no claim depends on, and keeps the essential shape: the reference is
appended underneath the snippets directory. -/
def pathJoin (a b : String) : String :=
  a ++ "/" ++ b

/-- The parsing grammar a unified processor is configured with: whether the
GFM extension (`remarkGfm`) and the mdx marker-element extension (`remarkMdx`)
are enabled.  `remarkStringify` affects only serialisation and is not
modelled. -/
structure Grammar where
  gfm : Bool
  mdx : Bool
deriving Repr, DecidableEq

/-- The grammar of a bare `remark()` processor: plain markdown. -/
def plainRemarkGrammar : Grammar :=
  { gfm := false, mdx := false }

/-- Plugin configuration (`part_003` lines 78-83).  `processor` models the
optional externally supplied processor as the grammar that processor already
carries (`unified ?? remark()` picks between it and a bare remark). -/
structure Config where
  snippetsDir : String
  fileAttribute : String
  elementName : String
  processor : Option Grammar
deriving Repr, DecidableEq

/-- The base grammar `unified ?? remark()` (`part_003` lines 170, 180, 212). -/
def baseGrammar (cfg : Config) : Grammar :=
  cfg.processor.getD plainRemarkGrammar

/-- Grammar of the local-snippet processor (`part_003` lines 212-221):
`(unified ?? remark()).use(remarkGfm).use(remarkStringify).use(remarkMdx)`. -/
def localSnippetGrammar (cfg : Config) : Grammar :=
  { baseGrammar cfg with gfm := true, mdx := true }

/-- Grammar of the remote GFM-first processor (`part_003` lines 170-178):
`(unified ?? remark()).use(remarkGfm).use(remarkStringify)` — no `remarkMdx`. -/
def remoteGfmGrammar (cfg : Config) : Grammar :=
  { baseGrammar cfg with gfm := true }

/-- Grammar of the remote fallback processor (`part_003` lines 180-187):
`(unified ?? remark()).use(remarkStringify)` — neither GFM nor `remarkMdx`. -/
def remoteBasicGrammar (cfg : Config) : Grammar :=
  baseGrammar cfg

/-- The options object passed to the recursive `.use(mdxSnippet, {...})`
invocations (`part_003` lines 173-178, 182-187, 216-221): the same four
fields, carried through unchanged. -/
def recursiveConfig (cfg : Config) : Config :=
  { snippetsDir := cfg.snippetsDir
    fileAttribute := cfg.fileAttribute
    elementName := cfg.elementName
    processor := cfg.processor }

/-- Observable side effects of one transform invocation. -/
inductive Event where
  | warn (msg : String) (node : Node)
  | warnStr (msg : String) (detail : String)
  | error (msg : String)
  | readReq (path : String)
  | fetchReq (url : String)
  | parseEv (g : Grammar) (content : String)

/-- Outcome of the single network GET issued by `fetchRemoteContent`: either
the transport itself errors (timeout, DNS, connection), or a response arrives
carrying an HTTP status, status text and body. -/
inductive FetchOutcome where
  | transportError (msg : String)
  | response (status : Nat) (statusText : String) (body : String)
deriving Repr, DecidableEq

/-- The resolved content of one reference: raw text plus the source identifier
(`{value, path}`, mirroring both the VFile returned by `read` and the object
literal built for remote fetches at `part_003` line 33). -/
structure ResolvedFile where
  value : String
  path : String
deriving Repr, DecidableEq

/-- Modelled from the spec: the external collaborators of the transform.  The
spec treats the filesystem, the network transport and the host-grammar parser
as provided collaborators (spec sections 1 and 6), so they enter the embedding
as oracle functions.  `readFile` returns the file text or the filesystem error
message `read` rejects with; `fetchUrl` is the transport; `parse` is the
unified parser for a given grammar, returning the root's children or the
message of the exception the parse throws. -/
structure World where
  readFile : String → Except String String
  fetchUrl : String → FetchOutcome
  parse : Grammar → String → Except String (List Node)

/-- Embeds `fetchRemoteContent` (`part_003` lines 26-40).  A non-2xx response
(`!response.ok`) raises `HTTP <status>: <statusText>`; that error — like any
transport error — is caught and rewrapped as
`Failed to fetch remote content from <url>: <cause>`.  On success the URL
itself is the `path` of the result.  The event records the single GET. -/
def fetchRemoteContent (w : World) (url : String) :
    Except String ResolvedFile × List Event :=
  (match w.fetchUrl url with
   | .transportError msg =>
     .error ("Failed to fetch remote content from " ++ url ++ ": " ++ msg)
   | .response status statusText body =>
     if 200 ≤ status ∧ status ≤ 299 then
       .ok ⟨body, url⟩
     else
       .error ("Failed to fetch remote content from " ++ url ++ ": " ++
         ("HTTP " ++ toString status ++ ": " ++ statusText)),
   [.fetchReq url])

/-- Content resolution for one marker (`part_003` lines 134-151): remote
references are fetched from the URL verbatim, local references are read from
`path.join(snippetsDir, reference)`. -/
def resolveContent (w : World) (cfg : Config) (v : String) :
    Except String ResolvedFile × List Event :=
  if isRemoteRef v then
    fetchRemoteContent w v
  else
    ((w.readFile (pathJoin cfg.snippetsDir v)).map
       (fun c => ⟨c, pathJoin cfg.snippetsDir v⟩),
     [.readReq (pathJoin cfg.snippetsDir v)])

/-- Find an attribute by name (`node.attributes.find(attr => attr.name === nm)`). -/
def findAttr (attrs : List MAttr) (nm : String) : Option MAttr :=
  attrs.find? fun a => a.name == nm

/-- Does the visitor treat this node as a snippet marker (`part_003` lines
89-97): flow or inline mdx JSX element whose `name` equals the configured
element name. -/
def isSnippetMarker (cfg : Config) (n : Node) : Bool :=
  (n.type == "mdxJsxFlowElement" || n.type == "mdxJsxTextElement") &&
    n.name == some (some cfg.elementName)

/-- The `console.warn` message for a missing or non-string file attribute
(`part_003` lines 105-108). -/
def missingAttrMsg (cfg : Config) : String :=
  cfg.elementName ++ " tag missing required \"" ++ cfg.fileAttribute ++
    "\" attribute:"

def posLineStr : Option MPos → String
  | some p => toString p.line
  | none => "undefined"

def posColStr : Option MPos → String
  | some p => toString p.column
  | none => "undefined"

/-- The `console.error` output of the catch handler (`part_003` lines
258-271), with console argument separation rendered as single spaces. -/
def readErrorMsg (docPath : String) (pos : Option MPos) (isRemote : Bool)
    (sourcePath : String) (cause : String) : String :=
  "Error reading snippet file:" ++ " " ++
    ("\n\nSnippet at: " ++ docPath ++ ":" ++ posLineStr pos ++ ":" ++
      posColStr pos) ++ " " ++
    ("\n" ++ (if isRemote then "Remote URL" else "File path") ++ ": " ++
      sourcePath) ++ " " ++
    ("\nError: " ++ cause)

/-- JavaScript truthiness of a string-or-null value: `null` and the empty
string are falsy. -/
def jsTruthy : Option String → Bool
  | none => false
  | some s => !(s == "")

/-- The `lang` field of the synthesised code node (`part_003` line 230):
`lang || extension || null` under JS truthiness. -/
def langOrExt (lang : Option String) (ext : String) : Option String :=
  if jsTruthy lang then lang
  else if ext == "" then none
  else some ext

/-- The `meta` field of the synthesised code node (`part_003` line 231):
`meta || null`. -/
def metaOrNull (meta : Option String) : Option String :=
  if jsTruthy meta then meta else none

/-- The `value` field of the synthesised code node (`part_003` line 232):
`snippetFile.value || snippetFile` — the raw text when non-empty, otherwise
(empty string being falsy) the whole resolved-file object. -/
def codeValue (rf : ResolvedFile) : NodeValue :=
  if rf.value == "" then .vfileObj rf.value rf.path else .str rf.value

/-- The code-block literal for opaque content (`part_003` lines 228-233): it
owns exactly the fields `type`, `lang`, `meta` and `value` — no `name`,
`attributes`, `children` or `position`. -/
def buildCodeNode (lang meta : Option String) (ext : String)
    (rf : ResolvedFile) : Node :=
  ⟨"code", none, none, none, some (codeValue rf),
   some (langOrExt lang ext), some (metaOrNull meta), none⟩

/-- The fragment container for a multi-node replacement (`part_003` lines
250-255): a nameless flow element with an empty attribute list; it owns
exactly `type`, `name`, `attributes` and `children`. -/
def fragmentNode (kids : List Node) : Node :=
  ⟨"mdxJsxFlowElement", some none, some [], some kids, none, none, none, none⟩

/-- The splice step (`part_003` lines 242-257): a single replacement node is
`Object.assign`ed onto the marker; otherwise (several nodes or none) the
marker is `Object.assign`ed into a fragment container holding the replacement
nodes. -/
def spliceReplacement (target : Node) (kids : List Node) : Node :=
  match kids with
  | [one] => objectAssign target one
  | _ => objectAssign target (fragmentNode kids)

/-- The attempt at `part_003` line 192, `new VFile({value: content, path:
sourceFile})`: the module never imports `VFile` at runtime (it appears only in
a JSDoc typedef comment), so evaluating the expression raises
`ReferenceError: VFile is not defined` before the GFM parse can run.  The
exception is caught by the surrounding `try` and routed to the basic
fallback. -/
def newVFileResult : Except String Unit :=
  .error "VFile is not defined"

/-- The `console.warn` prefix of the GFM fallback (`part_003` lines 201-204). -/
def gfmFallbackWarning : String :=
  "GFM processing failed, falling back to basic markdown:"

/-- Embeds the processing of one visited node (`part_003` lines 89-274): the
visitor match, attribute extraction and validation, content resolution, the
markdown/opaque dispatch, the splice and the catch handler.  `rec2` is the
recursive re-entry into the whole transform (instantiated by `runList` with
one fuel unit less); it is invoked on the node's children (the visitor
descends) and, for markdown-like content, on the freshly parsed sub-document
with the carried-through options object `recursiveConfig cfg` and the
sub-file's path.

Per node: children are processed first; a matching marker without a plain
string file attribute warns and stays; otherwise the content is resolved
(fetch or read), markdown-like content is re-parsed and recursively
transformed while any other content becomes a single code node; the
replacement is spliced over the marker; any error in the chain is terminal
only for this marker and becomes one `console.error` event. -/
def stepNode (w : World)
    (rec2 : Config → String → List Node → List Node × List Event)
    (cfg : Config) (docPath : String) (n : Node) : Node × List Event :=
  let kidsRes : Option (List Node) × List Event :=
    match n.children with
    | none => (none, [])
    | some kids =>
      let r := rec2 cfg docPath kids
      (some r.1, r.2)
  let n' := n.withChildren kidsRes.1
  if isSnippetMarker cfg n then
    match (findAttr (n.attributes.getD []) cfg.fileAttribute).bind
        (fun a => a.value) with
    | none => (n', kidsRes.2 ++ [.warn (missingAttrMsg cfg) n])
    | some v =>
      let attrs := n.attributes.getD []
      let lang := (findAttr attrs "lang").bind fun a => a.value
      let meta := (findAttr attrs "meta").bind fun a => a.value
      let isR := isRemoteRef v
      let res := resolveContent w cfg v
      let expansion : Except String (List Node) × List Event :=
        match res.1 with
        | .error e => (.error e, res.2)
        | .ok rf =>
          let ext := getFileExtension v
          if isMarkdownExtension ext then
            if isR then
              let basicFallback : String →
                  Except String (List Node) × List Event := fun gfmErr =>
                let ev0 : List Event :=
                  [.warnStr gfmFallbackWarning gfmErr,
                   .parseEv (remoteBasicGrammar cfg) rf.value]
                match w.parse (remoteBasicGrammar cfg) rf.value with
                | .error e => (.error e, res.2 ++ ev0)
                | .ok kids2 =>
                  let r := rec2 (recursiveConfig cfg) rf.path kids2
                  (.ok r.1, res.2 ++ ev0 ++ r.2)
              match newVFileResult with
              | .error gfmErr => basicFallback gfmErr
              | .ok _ =>
                match w.parse (remoteGfmGrammar cfg) rf.value with
                | .error gfmErr => basicFallback gfmErr
                | .ok kids2 =>
                  let r := rec2 (recursiveConfig cfg) rf.path kids2
                  (.ok r.1,
                   res.2 ++ [.parseEv (remoteGfmGrammar cfg) rf.value] ++ r.2)
            else
              match w.parse (localSnippetGrammar cfg) rf.value with
              | .error e =>
                (.error e,
                 res.2 ++ [.parseEv (localSnippetGrammar cfg) rf.value])
              | .ok kids2 =>
                let r := rec2 (recursiveConfig cfg) rf.path kids2
                (.ok r.1,
                 res.2 ++ [.parseEv (localSnippetGrammar cfg) rf.value] ++ r.2)
          else
            (.ok [buildCodeNode lang meta ext rf], res.2)
      match expansion.1 with
      | .ok kids3 => (spliceReplacement n' kids3, kidsRes.2 ++ expansion.2)
      | .error cause =>
        let sourcePath := if isR then v else pathJoin cfg.snippetsDir v
        (n',
         kidsRes.2 ++ expansion.2 ++
           [.error (readErrorMsg docPath n.position isR sourcePath cause)])
  else
    (n', kidsRes.2)

/-- Embeds the transformer returned by `mdxSnippet` (`part_003` lines 85-277),
applied to a list of sibling nodes: every sibling is processed independently
by `stepNode` and the results are gathered, mirroring the per-marker promise
queue awaited by `Promise.all`.  The fuel bounds the recursion depth through
freshly parsed sub-documents and through the tree; the JavaScript original has
no such bound and diverges on cyclic inclusion, so every claim is stated with
enough fuel.  With fuel `0` the list is returned untouched (a modelling
artifact no theorem relies on). -/
def runList (w : World) : Config → Nat → String → List Node → List Node × List Event
  | _, 0, _, ns => (ns, [])
  | cfg, Nat.succ f, docPath, ns =>
    let rs := ns.map (stepNode w (fun c d l => runList w c f d l) cfg docPath)
    (rs.map Prod.fst, (rs.map Prod.snd).flatten)

/-- Processing of a single node: the transform of a one-element sibling list. -/
def runNode (w : World) (cfg : Config) (fuel : Nat) (docPath : String)
    (n : Node) : Node × List Event :=
  let r := runList w cfg fuel docPath [n]
  (r.1.headD n, r.2)

/-- One whole transform invocation (`(tree, file) => ...`): the visitor starts
at the root, so the document is the singleton sibling list holding `tree`. -/
def transformDoc (w : World) (cfg : Config) (fuel : Nat) (docPath : String)
    (tree : Node) : Node × List Event :=
  runNode w cfg fuel docPath tree

/-- Does any node of the tree (up to the given depth) carry a string value
containing `s` as a substring?  Used to observe whether included literal
content reached the final tree. -/
def treeHasValueStr : Nat → Node → String → Bool
  | 0, _, _ => false
  | Nat.succ f, n, s =>
    (match n.value with
     | some (.str t) => strContains t s
     | _ => false) ||
    (match n.children with
     | some kids => kids.any fun k => treeHasValueStr f k s
     | none => false)

/-- A test world in which nothing resolves: every read and fetch fails and
every parse yields an empty document. -/
def w7 : World :=
  { readFile := fun _ => .error "ENOENT"
    fetchUrl := fun _ => .transportError "ECONNREFUSED"
    parse := fun _ _ => .ok [] }

def cfg7 : Config := ⟨"/snippets", "file", "Snippet", none⟩

/-- A marker whose `file` attribute exists but carries a non-string value. -/
def m7 : Node :=
  ⟨"mdxJsxFlowElement", some (some "Snippet"), some [⟨"file", none⟩],
   some [], none, none, none, some ⟨4, 2⟩⟩

/-- The children-processing part of one visited node: the visitor's descent.
`rec2` is the recursive re-entry (as in `stepNode`). -/
def stepKids (rec2 : Config → String → List Node → List Node × List Event)
    (cfg : Config) (docPath : String) (n : Node) :
    Option (List Node) × List Event :=
  match n.children with
  | none => (none, [])
  | some kids =>
    let r := rec2 cfg docPath kids
    (some r.1, r.2)

/-- The recursive re-entry `runList` hands to `stepNode`: the transform itself
with one fuel unit less. -/
def runRec (w : World) (f : Nat) :
    Config → String → List Node → List Node × List Event :=
  fun c d l => runList w c f d l

def nPara : Node :=
  ⟨"paragraph", none, none, some [], some (.str "plain text"), none, none, none⟩

def w1 : World :=
  { readFile := fun _ => .error "ENOENT: no such file or directory"
    fetchUrl := fun _ => .transportError "ETIMEDOUT"
    parse := fun _ _ => .ok [] }

def m1 : Node :=
  ⟨"mdxJsxFlowElement", some (some "Snippet"),
   some [⟨"file", some "missing.mdx"⟩], some [], none, none, none,
   some ⟨3, 1⟩⟩

def w2 : World :=
  { readFile := fun p =>
      if p = pathJoin "/snippets" "a.js" then .ok "console.log(1)"
      else .error "ENOENT"
    fetchUrl := fun _ => .transportError "ECONNREFUSED"
    parse := fun _ _ => .ok [] }

def m2 : Node :=
  ⟨"mdxJsxFlowElement", some (some "Snippet"),
   some [⟨"file", some "a.js"⟩], some [], none, none, none, some ⟨3, 1⟩⟩

def m4 : Node :=
  ⟨"mdxJsxFlowElement", some (some "Snippet"),
   some [⟨"file", some "a.js"⟩, ⟨"lang", some ""⟩], some [], none, none,
   none, none⟩

def w6 : World :=
  { readFile := fun _ => .error "ENOENT"
    fetchUrl := fun u =>
      if u = "http://h/x.md" then .response 404 "Not Found" ""
      else .transportError "ECONNREFUSED"
    parse := fun _ _ => .ok [] }

def readReqPaths (evs : List Event) : List String :=
  evs.filterMap fun e =>
    match e with
    | .readReq q => some q
    | _ => none

def cfg9 : Config := ⟨"/S", "src", "Inc", none⟩

def textX : Node :=
  ⟨"text", none, none, none, some (.str "X_CONTENT"), none, none, none⟩

def markerB9 : Node :=
  ⟨"mdxJsxFlowElement", some (some "Inc"), some [⟨"src", some "x.md"⟩],
   some [], none, none, none, none⟩

def htmlB9 : Node :=
  ⟨"html", none, none, none, some (.str "<Inc src=\"x.md\" />"), none, none,
   none⟩

def w9 : World :=
  { readFile := fun p =>
      if p = pathJoin "/S" "sub/a.mdx" then .ok "A_SRC"
      else if p = pathJoin "/S" "x.md" then .ok "X_SRC"
      else .error "ENOENT"
    fetchUrl := fun _ => .transportError "ECONNREFUSED"
    parse := fun g s =>
      if s = "A_SRC" then .ok [if g.mdx then markerB9 else htmlB9]
      else if s = "X_SRC" then .ok [textX]
      else .ok [] }

def markerA9 : Node :=
  ⟨"mdxJsxFlowElement", some (some "Inc"), some [⟨"src", some "sub/a.mdx"⟩],
   some [], none, none, none, none⟩

def root9 : Node :=
  ⟨"root", none, none, some [markerA9], none, none, none, none⟩

def cfg3 : Config := ⟨"/S", "file", "Snippet", none⟩

def textC : Node :=
  ⟨"text", none, none, none, some (.str "C_CONTENT"), none, none, none⟩

def markerB3 : Node :=
  ⟨"mdxJsxFlowElement", some (some "Snippet"), some [⟨"file", some "b.md"⟩],
   some [], none, none, none, none⟩

def htmlB3 : Node :=
  ⟨"html", none, none, none, some (.str "<Snippet file=\"b.md\" />"), none,
   none, none⟩

def markerBr3 : Node :=
  ⟨"mdxJsxFlowElement", some (some "Snippet"),
   some [⟨"file", some "http://h/c.md"⟩], some [], none, none, none, none⟩

def htmlBr3 : Node :=
  ⟨"html", none, none, none,
   some (.str "<Snippet file=\"http://h/c.md\" />"), none, none, none⟩

def w3 : World :=
  { readFile := fun p =>
      if p = pathJoin "/S" "a.md" then .ok "AB_SRC"
      else if p = pathJoin "/S" "a2.md" then .ok "AB2_SRC"
      else if p = pathJoin "/S" "b.md" then .ok "C_SRC"
      else .error "ENOENT"
    fetchUrl := fun u =>
      if u = "http://h/a.md" then .response 200 "OK" "AB_SRC"
      else if u = "http://h/c.md" then .response 200 "OK" "C_SRC"
      else .transportError "ECONNREFUSED"
    parse := fun g s =>
      if s = "AB_SRC" then .ok [if g.mdx then markerB3 else htmlB3]
      else if s = "AB2_SRC" then .ok [if g.mdx then markerBr3 else htmlBr3]
      else if s = "C_SRC" then .ok [textC]
      else .ok [] }

def markerA3r : Node :=
  ⟨"mdxJsxFlowElement", some (some "Snippet"),
   some [⟨"file", some "http://h/a.md"⟩], some [], none, none, none, none⟩

def rootR3 : Node :=
  ⟨"root", none, none, some [markerA3r], none, none, none, none⟩

def markerA3l : Node :=
  ⟨"mdxJsxFlowElement", some (some "Snippet"), some [⟨"file", some "a.md"⟩],
   some [], none, none, none, none⟩

def rootL3 : Node :=
  ⟨"root", none, none, some [markerA3l], none, none, none, none⟩

def markerA3l2 : Node :=
  ⟨"mdxJsxFlowElement", some (some "Snippet"), some [⟨"file", some "a2.md"⟩],
   some [], none, none, none, none⟩

def rootL23 : Node :=
  ⟨"root", none, none, some [markerA3l2], none, none, none, none⟩

def cfg8 : Config := ⟨"/S", "file", "Snippet", none⟩

def textH : Node :=
  ⟨"text", none, none, none, some (.str "HELLO"), none, none, none⟩

def w8 : World :=
  { readFile := fun _ => .error "ENOENT"
    fetchUrl := fun u =>
      if u = "http://h/a.md" then .response 200 "OK" "HELLO_SRC"
      else .transportError "ECONNREFUSED"
    parse := fun _ s => if s = "HELLO_SRC" then .ok [textH] else .ok [] }

def w8b : World :=
  { readFile := fun _ => .error "ENOENT"
    fetchUrl := fun u =>
      if u = "http://h/a.md" then .response 200 "OK" "HELLO_SRC"
      else .transportError "ECONNREFUSED"
    parse := fun _ s =>
      if s = "HELLO_SRC" then .error "boom" else .ok [] }

def m8 : Node :=
  ⟨"mdxJsxFlowElement", some (some "Snippet"),
   some [⟨"file", some "http://h/a.md"⟩], some [], none, none, none,
   some ⟨2, 5⟩⟩

theorem runList_zero (w : World) (cfg : Config) (dp : String) (ns : List Node) :
    runList w cfg 0 dp ns = (ns, []) := rfl

theorem runNode_succ (w : World) (cfg : Config) (f : Nat) (dp : String) (n : Node) :
    runNode w cfg (f + 1) dp n = stepNode w (runRec w f) cfg dp n := by
  show (((stepNode w (runRec w f) cfg dp n).1 :: []).headD n,
    (stepNode w (runRec w f) cfg dp n).2 ++ []) = _
  simp

theorem runList_cons (w : World) (cfg : Config) (f : Nat) (dp : String)
    (n : Node) (ns : List Node) :
    runList w cfg (f + 1) dp (n :: ns) =
      ((runNode w cfg (f + 1) dp n).1 :: (runList w cfg (f + 1) dp ns).1,
       (runNode w cfg (f + 1) dp n).2 ++ (runList w cfg (f + 1) dp ns).2) := by
  simp [runNode, runList]

theorem runList_append (w : World) (cfg : Config) (f : Nat) (dp : String)
    (xs ys : List Node) :
    runList w cfg (f + 1) dp (xs ++ ys) =
      ((runList w cfg (f + 1) dp xs).1 ++ (runList w cfg (f + 1) dp ys).1,
       (runList w cfg (f + 1) dp xs).2 ++ (runList w cfg (f + 1) dp ys).2) := by
  simp [runList]

theorem runList_length (w : World) (cfg : Config) (fuel : Nat) (dp : String)
    (ns : List Node) :
    (runList w cfg fuel dp ns).1.length = ns.length := by
  cases fuel <;> simp [runList]

theorem stepNode_nonmarker (w : World)
    (rec2 : Config → String → List Node → List Node × List Event)
    (cfg : Config) (dp : String)
    (n : Node) (hm : isSnippetMarker cfg n = false) :
    stepNode w rec2 cfg dp n =
      (n.withChildren (stepKids rec2 cfg dp n).1, (stepKids rec2 cfg dp n).2) := by
  simp [stepNode, stepKids, hm]

theorem stepNode_missing_attr (w : World)
    (rec2 : Config → String → List Node → List Node × List Event)
    (cfg : Config) (dp : String)
    (n : Node) (hm : isSnippetMarker cfg n = true)
    (hattr : (findAttr (n.attributes.getD []) cfg.fileAttribute).bind
      (fun a => a.value) = none) :
    stepNode w rec2 cfg dp n =
      (n.withChildren (stepKids rec2 cfg dp n).1,
       (stepKids rec2 cfg dp n).2 ++ [.warn (missingAttrMsg cfg) n]) := by
  simp [stepNode, stepKids, hm, hattr]

theorem strContains_iff (hay needle : String) :
    strContains hay needle = true ↔ needle.data <:+: hay.data := by
  simp only [strContains, List.any_eq_true, List.mem_tails,
    List.isPrefixOf_iff_prefix]
  rw [List.infix_iff_prefix_suffix]
  constructor
  · rintro ⟨t, hsuf, hpre⟩
    exact ⟨t, hpre, hsuf⟩
  · rintro ⟨t, hpre, hsuf⟩
    exact ⟨t, hsuf, hpre⟩

theorem strContains_self (s : String) : strContains s s = true := by
  rw [strContains_iff]

theorem strContains_append_l (a b s : String) (h : strContains a s = true) :
    strContains (a ++ b) s = true := by
  rw [strContains_iff] at h ⊢
  rw [String.data_append]
  exact h.trans (by simpa using List.infix_append [] a.data b.data)

theorem strContains_append_r (a b s : String) (h : strContains b s = true) :
    strContains (a ++ b) s = true := by
  rw [strContains_iff] at h ⊢
  rw [String.data_append]
  exact h.trans (by simpa using List.infix_append a.data b.data [])

theorem Node.withChildren_fields (n : Node) (c : Option (List Node)) :
    (n.withChildren c).type = n.type ∧ (n.withChildren c).name = n.name ∧
    (n.withChildren c).attributes = n.attributes ∧
    (n.withChildren c).children = c ∧
    (n.withChildren c).value = n.value ∧ (n.withChildren c).lang = n.lang ∧
    (n.withChildren c).meta = n.meta ∧
    (n.withChildren c).position = n.position := by
  cases n
  exact ⟨rfl, rfl, rfl, rfl, rfl, rfl, rfl, rfl⟩

/-- C7: a marker whose configured file attribute is absent or has a non-string
value warns (the message names the configured element and attribute names, and
the offending node is attached), keeps every one of its own fields (its
children list is merely the result of the ordinary recursive descent, in which
other markers handle themselves), and the remaining siblings are processed
independently. -/
theorem claim_c7_malformed_marker
    (w : World) (cfg : Config) (dp : String) (f : Nat) (n : Node)
    (hm : isSnippetMarker cfg n = true)
    (hattr : (findAttr (n.attributes.getD []) cfg.fileAttribute).bind
      (fun a => a.value) = none) :
    runNode w cfg (f + 1) dp n =
      (n.withChildren (stepKids (runRec w f) cfg dp n).1,
       (stepKids (runRec w f) cfg dp n).2 ++ [.warn (missingAttrMsg cfg) n]) ∧
    (runNode w cfg (f + 1) dp n).1.type = n.type ∧
    (runNode w cfg (f + 1) dp n).1.name = n.name ∧
    (runNode w cfg (f + 1) dp n).1.attributes = n.attributes ∧
    (runNode w cfg (f + 1) dp n).1.value = n.value ∧
    (runNode w cfg (f + 1) dp n).1.lang = n.lang ∧
    (runNode w cfg (f + 1) dp n).1.meta = n.meta ∧
    (runNode w cfg (f + 1) dp n).1.position = n.position ∧
    strContains (missingAttrMsg cfg) cfg.elementName = true ∧
    strContains (missingAttrMsg cfg) cfg.fileAttribute = true ∧
    ∀ xs ys : List Node,
      runList w cfg (f + 1) dp (xs ++ n :: ys) =
        ((runList w cfg (f + 1) dp xs).1 ++
           (runNode w cfg (f + 1) dp n).1 :: (runList w cfg (f + 1) dp ys).1,
         (runList w cfg (f + 1) dp xs).2 ++
           ((runNode w cfg (f + 1) dp n).2 ++ (runList w cfg (f + 1) dp ys).2)) := by
  have h1 : runNode w cfg (f + 1) dp n =
      (n.withChildren (stepKids (runRec w f) cfg dp n).1,
       (stepKids (runRec w f) cfg dp n).2 ++ [.warn (missingAttrMsg cfg) n]) :=
    (runNode_succ w cfg f dp n).trans
      (stepNode_missing_attr w (runRec w f) cfg dp n hm hattr)
  have hfields := Node.withChildren_fields n (stepKids (runRec w f) cfg dp n).1
  refine ⟨h1, ?_, ?_, ?_, ?_, ?_, ?_, ?_, ?_, ?_, ?_⟩
  · rw [h1]; exact hfields.1
  · rw [h1]; exact hfields.2.1
  · rw [h1]; exact hfields.2.2.1
  · rw [h1]; exact hfields.2.2.2.2.1
  · rw [h1]; exact hfields.2.2.2.2.2.1
  · rw [h1]; exact hfields.2.2.2.2.2.2.1
  · rw [h1]; exact hfields.2.2.2.2.2.2.2
  · show strContains (cfg.elementName ++ " tag missing required \"" ++
      cfg.fileAttribute ++ "\" attribute:") cfg.elementName = true
    exact strContains_append_l _ _ _ (strContains_append_l _ _ _
      (strContains_append_l _ _ _ (strContains_self _)))
  · show strContains (cfg.elementName ++ " tag missing required \"" ++
      cfg.fileAttribute ++ "\" attribute:") cfg.fileAttribute = true
    exact strContains_append_l _ _ _ (strContains_append_r _ _ _
      (strContains_self _))
  · intro xs ys
    rw [runList_append, runList_cons]

theorem claim_c7_witness :
    isSnippetMarker cfg7 m7 = true ∧
    (findAttr (m7.attributes.getD []) cfg7.fileAttribute).bind
      (fun a => a.value) = none ∧
    (runNode w7 cfg7 1 "doc.mdx" m7 =
      (m7.withChildren (stepKids (runRec w7 0) cfg7 "doc.mdx" m7).1,
       (stepKids (runRec w7 0) cfg7 "doc.mdx" m7).2 ++
         [.warn (missingAttrMsg cfg7) m7]) ∧
     (runNode w7 cfg7 1 "doc.mdx" m7).1.type = m7.type ∧
     (runNode w7 cfg7 1 "doc.mdx" m7).1.name = m7.name ∧
     (runNode w7 cfg7 1 "doc.mdx" m7).1.attributes = m7.attributes ∧
     (runNode w7 cfg7 1 "doc.mdx" m7).1.value = m7.value ∧
     (runNode w7 cfg7 1 "doc.mdx" m7).1.lang = m7.lang ∧
     (runNode w7 cfg7 1 "doc.mdx" m7).1.meta = m7.meta ∧
     (runNode w7 cfg7 1 "doc.mdx" m7).1.position = m7.position ∧
     strContains (missingAttrMsg cfg7) cfg7.elementName = true ∧
     strContains (missingAttrMsg cfg7) cfg7.fileAttribute = true ∧
     ∀ xs ys : List Node,
       runList w7 cfg7 1 "doc.mdx" (xs ++ m7 :: ys) =
         ((runList w7 cfg7 1 "doc.mdx" xs).1 ++
            (runNode w7 cfg7 1 "doc.mdx" m7).1 ::
              (runList w7 cfg7 1 "doc.mdx" ys).1,
          (runList w7 cfg7 1 "doc.mdx" xs).2 ++
            ((runNode w7 cfg7 1 "doc.mdx" m7).2 ++
              (runList w7 cfg7 1 "doc.mdx" ys).2))) :=
  ⟨by decide, by decide,
   claim_c7_malformed_marker w7 cfg7 "doc.mdx" 0 m7 (by decide) (by decide)⟩

theorem stepNode_resolve_error (w : World)
    (rec2 : Config → String → List Node → List Node × List Event)
    (cfg : Config) (dp : String) (n : Node) (v cause : String)
    (evR : List Event)
    (hm : isSnippetMarker cfg n = true)
    (hattr : (findAttr (n.attributes.getD []) cfg.fileAttribute).bind
      (fun a => a.value) = some v)
    (hres : resolveContent w cfg v = (.error cause, evR)) :
    stepNode w rec2 cfg dp n =
      (n.withChildren (stepKids rec2 cfg dp n).1,
       (stepKids rec2 cfg dp n).2 ++ evR ++
         [.error (readErrorMsg dp n.position (isRemoteRef v)
           (if isRemoteRef v then v else pathJoin cfg.snippetsDir v) cause)]) := by
  simp [stepNode, stepKids, hm, hattr, hres]

theorem stepNode_code_branch (w : World)
    (rec2 : Config → String → List Node → List Node × List Event)
    (cfg : Config) (dp : String) (n : Node) (v : String)
    (rf : ResolvedFile) (evR : List Event)
    (hm : isSnippetMarker cfg n = true)
    (hattr : (findAttr (n.attributes.getD []) cfg.fileAttribute).bind
      (fun a => a.value) = some v)
    (hres : resolveContent w cfg v = (.ok rf, evR))
    (hext : isMarkdownExtension (getFileExtension v) = false) :
    stepNode w rec2 cfg dp n =
      (spliceReplacement (n.withChildren (stepKids rec2 cfg dp n).1)
         [buildCodeNode
           ((findAttr (n.attributes.getD []) "lang").bind fun a => a.value)
           ((findAttr (n.attributes.getD []) "meta").bind fun a => a.value)
           (getFileExtension v) rf],
       (stepKids rec2 cfg dp n).2 ++ evR) := by
  simp [stepNode, stepKids, hm, hattr, hres, hext]

theorem stepNode_local_markdown (w : World)
    (rec2 : Config → String → List Node → List Node × List Event)
    (cfg : Config) (dp : String) (n : Node) (v : String)
    (rf : ResolvedFile) (evR : List Event) (kids2 : List Node)
    (hm : isSnippetMarker cfg n = true)
    (hattr : (findAttr (n.attributes.getD []) cfg.fileAttribute).bind
      (fun a => a.value) = some v)
    (hres : resolveContent w cfg v = (.ok rf, evR))
    (hext : isMarkdownExtension (getFileExtension v) = true)
    (hrem : isRemoteRef v = false)
    (hparse : w.parse (localSnippetGrammar cfg) rf.value = .ok kids2) :
    stepNode w rec2 cfg dp n =
      (spliceReplacement (n.withChildren (stepKids rec2 cfg dp n).1)
         (rec2 (recursiveConfig cfg) rf.path kids2).1,
       (stepKids rec2 cfg dp n).2 ++
         (evR ++ [.parseEv (localSnippetGrammar cfg) rf.value] ++
           (rec2 (recursiveConfig cfg) rf.path kids2).2)) := by
  simp [stepNode, stepKids, hm, hattr, hres, hext, hrem, hparse]

theorem stepNode_remote_markdown (w : World)
    (rec2 : Config → String → List Node → List Node × List Event)
    (cfg : Config) (dp : String) (n : Node) (v : String)
    (rf : ResolvedFile) (evR : List Event) (kids2 : List Node)
    (hm : isSnippetMarker cfg n = true)
    (hattr : (findAttr (n.attributes.getD []) cfg.fileAttribute).bind
      (fun a => a.value) = some v)
    (hres : resolveContent w cfg v = (.ok rf, evR))
    (hext : isMarkdownExtension (getFileExtension v) = true)
    (hrem : isRemoteRef v = true)
    (hparse : w.parse (remoteBasicGrammar cfg) rf.value = .ok kids2) :
    stepNode w rec2 cfg dp n =
      (spliceReplacement (n.withChildren (stepKids rec2 cfg dp n).1)
         (rec2 (recursiveConfig cfg) rf.path kids2).1,
       (stepKids rec2 cfg dp n).2 ++
         (evR ++
           [.warnStr gfmFallbackWarning "VFile is not defined",
            .parseEv (remoteBasicGrammar cfg) rf.value] ++
           (rec2 (recursiveConfig cfg) rf.path kids2).2)) := by
  simp [stepNode, stepKids, hm, hattr, hres, hext, hrem, hparse, newVFileResult]

theorem stepNode_remote_markdown_parsefail (w : World)
    (rec2 : Config → String → List Node → List Node × List Event)
    (cfg : Config) (dp : String) (n : Node) (v : String)
    (rf : ResolvedFile) (evR : List Event) (e : String)
    (hm : isSnippetMarker cfg n = true)
    (hattr : (findAttr (n.attributes.getD []) cfg.fileAttribute).bind
      (fun a => a.value) = some v)
    (hres : resolveContent w cfg v = (.ok rf, evR))
    (hext : isMarkdownExtension (getFileExtension v) = true)
    (hrem : isRemoteRef v = true)
    (hparse : w.parse (remoteBasicGrammar cfg) rf.value = .error e) :
    stepNode w rec2 cfg dp n =
      (n.withChildren (stepKids rec2 cfg dp n).1,
       (stepKids rec2 cfg dp n).2 ++
         (evR ++
           [.warnStr gfmFallbackWarning "VFile is not defined",
            .parseEv (remoteBasicGrammar cfg) rf.value]) ++
         [.error (readErrorMsg dp n.position true v e)]) := by
  simp [stepNode, stepKids, hm, hattr, hres, hext, hrem, hparse, newVFileResult]

/-- C10: the transform never restructures a children list — at every fuel the
output sibling list has the same length, each position holds the processing of
the node that was at that position, a non-marker node keeps every field except
its recursively processed children, and the children count of a non-marker is
preserved. -/
theorem claim_c10_frame (w : World) (cfg : Config) (dp : String) :
    (∀ (fuel : Nat) (ns : List Node),
      (runList w cfg fuel dp ns).1.length = ns.length) ∧
    (∀ (f : Nat) (ns : List Node),
      (runList w cfg (f + 1) dp ns).1 =
        ns.map fun n => (runNode w cfg (f + 1) dp n).1) ∧
    (∀ (f : Nat) (n : Node), isSnippetMarker cfg n = false →
      runNode w cfg (f + 1) dp n =
        (n.withChildren (stepKids (runRec w f) cfg dp n).1,
         (stepKids (runRec w f) cfg dp n).2)) ∧
    (∀ (fuel : Nat) (n : Node), isSnippetMarker cfg n = false →
      Option.map List.length ((runNode w cfg fuel dp n).1.children) =
        Option.map List.length n.children) := by
  have h3 : ∀ (f : Nat) (n : Node), isSnippetMarker cfg n = false →
      runNode w cfg (f + 1) dp n =
        (n.withChildren (stepKids (runRec w f) cfg dp n).1,
         (stepKids (runRec w f) cfg dp n).2) := by
    intro f n hm
    exact (runNode_succ w cfg f dp n).trans
      (stepNode_nonmarker w (runRec w f) cfg dp n hm)
  refine ⟨fun fuel ns => runList_length w cfg fuel dp ns, ?_, h3, ?_⟩
  · intro f ns
    induction ns with
    | nil => rfl
    | cons n ns ih => rw [runList_cons, List.map_cons, ih]
  · intro fuel n hm
    cases fuel with
    | zero => rfl
    | succ f =>
      rw [h3 f n hm]
      cases hc : n.children with
      | none =>
        simp [stepKids, hc, Node.withChildren_fields]
      | some kids =>
        simp [stepKids, hc, (Node.withChildren_fields n _).2.2.2.1,
          runRec, runList_length]

theorem claim_c10_witness :
    isSnippetMarker cfg7 nPara = false ∧
    (runList w7 cfg7 3 "doc.mdx" [nPara, m7]).1.length = 2 ∧
    runNode w7 cfg7 1 "doc.mdx" nPara =
      (nPara.withChildren (stepKids (runRec w7 0) cfg7 "doc.mdx" nPara).1,
       (stepKids (runRec w7 0) cfg7 "doc.mdx" nPara).2) ∧
    Option.map List.length ((runNode w7 cfg7 5 "doc.mdx" nPara).1.children) =
      Option.map List.length nPara.children :=
  ⟨by decide,
   by rw [(claim_c10_frame w7 cfg7 "doc.mdx").1 3 [nPara, m7]]; rfl,
   (claim_c10_frame w7 cfg7 "doc.mdx").2.2.1 0 nPara (by decide),
   (claim_c10_frame w7 cfg7 "doc.mdx").2.2.2 5 nPara (by decide)⟩

theorem readErrorMsg_contains (dp : String) (pos : Option MPos) (isR : Bool)
    (sp cause : String) :
    strContains (readErrorMsg dp pos isR sp cause)
      "Error reading snippet file" = true ∧
    strContains (readErrorMsg dp pos isR sp cause) dp = true ∧
    strContains (readErrorMsg dp pos isR sp cause) sp = true ∧
    strContains (readErrorMsg dp pos isR sp cause) cause = true ∧
    strContains (readErrorMsg dp pos isR sp cause) (posLineStr pos) = true ∧
    strContains (readErrorMsg dp pos isR sp cause) (posColStr pos) = true := by
  simp only [readErrorMsg]
  refine ⟨?_, ?_, ?_, ?_, ?_, ?_⟩
  · apply strContains_append_l
    apply strContains_append_l
    apply strContains_append_l
    apply strContains_append_l
    apply strContains_append_l
    apply strContains_append_l
    decide
  · apply strContains_append_l
    apply strContains_append_l
    apply strContains_append_l
    apply strContains_append_l
    apply strContains_append_r
    apply strContains_append_l
    apply strContains_append_l
    apply strContains_append_l
    apply strContains_append_l
    apply strContains_append_r
    exact strContains_self dp
  · apply strContains_append_l
    apply strContains_append_l
    apply strContains_append_r
    apply strContains_append_r
    exact strContains_self sp
  · apply strContains_append_r
    apply strContains_append_r
    exact strContains_self cause
  · apply strContains_append_l
    apply strContains_append_l
    apply strContains_append_l
    apply strContains_append_l
    apply strContains_append_r
    apply strContains_append_l
    apply strContains_append_l
    apply strContains_append_r
    exact strContains_self _
  · apply strContains_append_l
    apply strContains_append_l
    apply strContains_append_l
    apply strContains_append_l
    apply strContains_append_r
    apply strContains_append_r
    exact strContains_self _

/-- C1: when a marker's content resolution fails (local read error or remote
fetch error), one `console.error` diagnostic is emitted whose message names
`Error reading snippet file` and contains the document path, the marker's
line and column when a position is available (rendered `undefined` otherwise),
the resolved path or URL and the underlying cause; the marker node keeps every
one of its own fields; and the sibling markers around it are processed
independently of the failure (the transform as a whole is a total function of
the tree, so no rejection escapes). -/
theorem claim_c1_resolution_failure_isolated
    (w : World) (cfg : Config) (dp : String) (f : Nat) (n : Node)
    (v cause : String) (sp : String)
    (hm : isSnippetMarker cfg n = true)
    (hattr : (findAttr (n.attributes.getD []) cfg.fileAttribute).bind
      (fun a => a.value) = some v)
    (hres : (resolveContent w cfg v).1 = .error cause)
    (hsp : sp = if isRemoteRef v then v else pathJoin cfg.snippetsDir v) :
    runNode w cfg (f + 1) dp n =
      (n.withChildren (stepKids (runRec w f) cfg dp n).1,
       (stepKids (runRec w f) cfg dp n).2 ++ (resolveContent w cfg v).2 ++
         [.error (readErrorMsg dp n.position (isRemoteRef v) sp cause)]) ∧
    (runNode w cfg (f + 1) dp n).1.type = n.type ∧
    (runNode w cfg (f + 1) dp n).1.name = n.name ∧
    (runNode w cfg (f + 1) dp n).1.attributes = n.attributes ∧
    (runNode w cfg (f + 1) dp n).1.value = n.value ∧
    (runNode w cfg (f + 1) dp n).1.position = n.position ∧
    strContains (readErrorMsg dp n.position (isRemoteRef v) sp cause)
      "Error reading snippet file" = true ∧
    strContains (readErrorMsg dp n.position (isRemoteRef v) sp cause) dp = true ∧
    strContains (readErrorMsg dp n.position (isRemoteRef v) sp cause) sp = true ∧
    strContains (readErrorMsg dp n.position (isRemoteRef v) sp cause) cause = true ∧
    strContains (readErrorMsg dp n.position (isRemoteRef v) sp cause)
      (posLineStr n.position) = true ∧
    strContains (readErrorMsg dp n.position (isRemoteRef v) sp cause)
      (posColStr n.position) = true ∧
    (∀ p : MPos, posLineStr (some p) = toString p.line ∧
      posColStr (some p) = toString p.column) ∧
    ∀ xs ys : List Node,
      runList w cfg (f + 1) dp (xs ++ n :: ys) =
        ((runList w cfg (f + 1) dp xs).1 ++
           (runNode w cfg (f + 1) dp n).1 :: (runList w cfg (f + 1) dp ys).1,
         (runList w cfg (f + 1) dp xs).2 ++
           ((runNode w cfg (f + 1) dp n).2 ++ (runList w cfg (f + 1) dp ys).2)) := by
  rw [hsp]
  have hres2 : resolveContent w cfg v =
      (.error cause, (resolveContent w cfg v).2) := by
    rw [← hres]
  have h1 : runNode w cfg (f + 1) dp n =
      (n.withChildren (stepKids (runRec w f) cfg dp n).1,
       (stepKids (runRec w f) cfg dp n).2 ++ (resolveContent w cfg v).2 ++
         [.error (readErrorMsg dp n.position (isRemoteRef v)
           (if isRemoteRef v then v else pathJoin cfg.snippetsDir v) cause)]) :=
    (runNode_succ w cfg f dp n).trans
      (stepNode_resolve_error w (runRec w f) cfg dp n v cause
        (resolveContent w cfg v).2 hm hattr hres2)
  have hfields := Node.withChildren_fields n (stepKids (runRec w f) cfg dp n).1
  have hmsg := readErrorMsg_contains dp n.position (isRemoteRef v)
    (if isRemoteRef v then v else pathJoin cfg.snippetsDir v) cause
  refine ⟨h1, ?_, ?_, ?_, ?_, ?_, hmsg.1, hmsg.2.1, hmsg.2.2.1, hmsg.2.2.2.1,
    hmsg.2.2.2.2.1, hmsg.2.2.2.2.2, fun p => ⟨rfl, rfl⟩, ?_⟩
  · rw [h1]; exact hfields.1
  · rw [h1]; exact hfields.2.1
  · rw [h1]; exact hfields.2.2.1
  · rw [h1]; exact hfields.2.2.2.2.1
  · rw [h1]; exact hfields.2.2.2.2.2.2.2
  · intro xs ys
    rw [runList_append, runList_cons]

theorem claim_c1_witness :
    isSnippetMarker cfg7 m1 = true ∧
    (findAttr (m1.attributes.getD []) cfg7.fileAttribute).bind
      (fun a => a.value) = some "missing.mdx" ∧
    (resolveContent w1 cfg7 "missing.mdx").1 =
      .error "ENOENT: no such file or directory" ∧
    runNode w1 cfg7 1 "doc.mdx" m1 =
      (m1.withChildren (stepKids (runRec w1 0) cfg7 "doc.mdx" m1).1,
       (stepKids (runRec w1 0) cfg7 "doc.mdx" m1).2 ++
         (resolveContent w1 cfg7 "missing.mdx").2 ++
         [.error (readErrorMsg "doc.mdx" m1.position
           (isRemoteRef "missing.mdx")
           (pathJoin cfg7.snippetsDir "missing.mdx")
           "ENOENT: no such file or directory")]) :=
  ⟨by decide, by decide, by decide,
   (claim_c1_resolution_failure_isolated w1 cfg7 "doc.mdx" 0 m1 "missing.mdx"
     "ENOENT: no such file or directory"
     (pathJoin cfg7.snippetsDir "missing.mdx")
     (by decide) (by decide) (by decide) (by decide)).1⟩

/-- C2 counterexample: a marker resolving to a single code node is spliced by
`Object.assign`, which copies only the fields the replacement owns.  The code
node owns no `attributes` (and no `name`, `children`); after the splice the
marker still carries its original attribute list and element name, so the
claim that the marker's `attributes`, `children` and `value` are overwritten
with the single node's fields is false at this input. -/
theorem claim_c2_counterexample :
    (runNode w2 cfg7 1 "doc.mdx" m2).1.type = "code" ∧
    (runNode w2 cfg7 1 "doc.mdx" m2).1.lang = some (some "js") ∧
    (runNode w2 cfg7 1 "doc.mdx" m2).1.value =
      some (.str "console.log(1)") ∧
    (buildCodeNode none none "js"
      ⟨"console.log(1)", pathJoin "/snippets" "a.js"⟩).attributes = none ∧
    (buildCodeNode none none "js"
      ⟨"console.log(1)", pathJoin "/snippets" "a.js"⟩).name = none ∧
    (runNode w2 cfg7 1 "doc.mdx" m2).1.attributes =
      some [⟨"file", some "a.js"⟩] ∧
    (runNode w2 cfg7 1 "doc.mdx" m2).1.name = some (some "Snippet") ∧
    ¬((runNode w2 cfg7 1 "doc.mdx" m2).1.attributes =
      (buildCodeNode none none "js"
        ⟨"console.log(1)", pathJoin "/snippets" "a.js"⟩).attributes) := by
  decide

/-- C2 amended: a single replacement node is `Object.assign`ed onto the marker
— each field the replacement owns overwrites the marker's field, and each
field the replacement does not own (commonly `attributes`, `name`, `children`
or `value`) keeps the marker's previous value; a replacement of several nodes,
or of none, turns the marker into a nameless flow element with an empty
attribute list whose children are the replacement nodes in order (an empty
children list in the zero case), other marker fields again being retained. -/
theorem claim_c2_splice_amended (target one : Node) (kids : List Node) :
    spliceReplacement target [one] = objectAssign target one ∧
    (objectAssign target one).type = one.type ∧
    (objectAssign target one).name = fieldAssign one.name target.name ∧
    (objectAssign target one).attributes =
      fieldAssign one.attributes target.attributes ∧
    (objectAssign target one).children =
      fieldAssign one.children target.children ∧
    (objectAssign target one).value = fieldAssign one.value target.value ∧
    (objectAssign target one).lang = fieldAssign one.lang target.lang ∧
    (objectAssign target one).meta = fieldAssign one.meta target.meta ∧
    (objectAssign target one).position =
      fieldAssign one.position target.position ∧
    (∀ (α : Type) (x : α) (t : Option α),
      fieldAssign (some x) t = some x ∧ fieldAssign none t = t) ∧
    (kids.length ≠ 1 →
      spliceReplacement target kids = objectAssign target (fragmentNode kids)) ∧
    (objectAssign target (fragmentNode kids)).type = "mdxJsxFlowElement" ∧
    (objectAssign target (fragmentNode kids)).name = some none ∧
    (objectAssign target (fragmentNode kids)).attributes = some [] ∧
    (objectAssign target (fragmentNode kids)).children = some kids ∧
    (objectAssign target (fragmentNode kids)).value = target.value ∧
    (objectAssign target (fragmentNode kids)).position = target.position := by
  obtain ⟨t1, t2, t3, t4, t5, t6, t7, t8⟩ := target
  obtain ⟨o1, o2, o3, o4, o5, o6, o7, o8⟩ := one
  refine ⟨rfl, rfl, rfl, rfl, rfl, rfl, rfl, rfl, rfl,
    fun α x t => ⟨rfl, rfl⟩, ?_, rfl, rfl, rfl, rfl, rfl, rfl⟩
  intro h
  match kids, h with
  | [], _ => rfl
  | [a], h => exact absurd rfl h
  | a :: b :: t, _ => rfl

theorem claim_c2_witness :
    ([nPara, m7] : List Node).length ≠ 1 ∧
    (spliceReplacement m2 [nPara] = objectAssign m2 nPara ∧
     (objectAssign m2 nPara).type = nPara.type ∧
     spliceReplacement m2 [nPara, m7] =
       objectAssign m2 (fragmentNode [nPara, m7]) ∧
     (objectAssign m2 (fragmentNode [nPara, m7])).children =
       some [nPara, m7]) := by
  refine ⟨by decide, ?_, ?_, ?_, ?_⟩
  · exact (claim_c2_splice_amended m2 nPara [nPara, m7]).1
  · exact (claim_c2_splice_amended m2 nPara [nPara, m7]).2.1
  · exact (claim_c2_splice_amended m2 nPara [nPara, m7]).2.2.2.2.2.2.2.2.2.2.1
      (by decide)
  · exact (claim_c2_splice_amended m2 nPara
      [nPara, m7]).2.2.2.2.2.2.2.2.2.2.2.2.2.2.1

theorem spliceReplacement_one (t x : Node) :
    spliceReplacement t [x] = objectAssign t x := rfl

theorem resolveContent_events (w : World) (cfg : Config) (v : String) :
    (resolveContent w cfg v).2 =
      (if isRemoteRef v then [.fetchReq v]
       else [.readReq (pathJoin cfg.snippetsDir v)]) := by
  by_cases h : isRemoteRef v = true
  · simp [resolveContent, fetchRemoteContent, h]
  · simp at h
    simp [resolveContent, h]

/-- C4 counterexample: a marker supplying the `lang` attribute with the empty
string.  The claim requires the code node's language tag to equal the supplied
attribute, the empty string; but `lang || extension || null` under JS
truthiness skips the empty string and the produced tag is the classified
extension `js`. -/
theorem claim_c4_counterexample :
    (findAttr (m4.attributes.getD []) "lang").bind (fun a => a.value) =
      some "" ∧
    langOrExt (some "") (getFileExtension "a.js") = some "js" ∧
    (runNode w2 cfg7 1 "doc.mdx" m4).1.type = "code" ∧
    (runNode w2 cfg7 1 "doc.mdx" m4).1.lang = some (some "js") ∧
    ¬((runNode w2 cfg7 1 "doc.mdx" m4).1.lang = some (some "")) := by
  decide

/-- C4 amended: for a marker whose classified extension is not markdown-like
and whose content resolves, the replacement is exactly one code node and no
parse is invoked; the code node's language tag is the marker's `lang`
attribute when that is a non-empty string, else the classified extension when
non-empty, else null; its meta is the `meta` attribute when a non-empty
string, else null; its value is the raw resolved text verbatim whenever that
text is non-empty, while empty resolved text degrades to the whole
resolved-file object (`snippetFile.value || snippetFile`,
`lang || extension || null` and `meta || null` are JS-truthy choices, for
which the empty string is falsy). -/
theorem claim_c4_code_block_amended
    (w : World) (cfg : Config) (dp : String) (f : Nat) (n : Node)
    (v : String) (rf : ResolvedFile)
    (hm : isSnippetMarker cfg n = true)
    (hattr : (findAttr (n.attributes.getD []) cfg.fileAttribute).bind
      (fun a => a.value) = some v)
    (hres : (resolveContent w cfg v).1 = .ok rf)
    (hext : isMarkdownExtension (getFileExtension v) = false) :
    runNode w cfg (f + 1) dp n =
      (objectAssign (n.withChildren (stepKids (runRec w f) cfg dp n).1)
         (buildCodeNode
           ((findAttr (n.attributes.getD []) "lang").bind fun a => a.value)
           ((findAttr (n.attributes.getD []) "meta").bind fun a => a.value)
           (getFileExtension v) rf),
       (stepKids (runRec w f) cfg dp n).2 ++ (resolveContent w cfg v).2) ∧
    (∀ lang meta : Option String,
      (buildCodeNode lang meta (getFileExtension v) rf).type = "code" ∧
      (buildCodeNode lang meta (getFileExtension v) rf).lang =
        some (langOrExt lang (getFileExtension v)) ∧
      (buildCodeNode lang meta (getFileExtension v) rf).meta =
        some (metaOrNull meta) ∧
      (buildCodeNode lang meta (getFileExtension v) rf).value =
        some (codeValue rf)) ∧
    (∀ (l : String) (ext : String), l ≠ "" →
      langOrExt (some l) ext = some l) ∧
    (∀ ext : String,
      langOrExt none ext = (if ext == "" then none else some ext) ∧
      langOrExt (some "") ext = (if ext == "" then none else some ext)) ∧
    (∀ m : String, m ≠ "" → metaOrNull (some m) = some m) ∧
    metaOrNull none = none ∧
    metaOrNull (some "") = none ∧
    (rf.value ≠ "" → codeValue rf = .str rf.value) ∧
    (∀ p : String, codeValue ⟨"", p⟩ = .vfileObj "" p) ∧
    (resolveContent w cfg v).2 =
      (if isRemoteRef v then [.fetchReq v]
       else [.readReq (pathJoin cfg.snippetsDir v)]) := by
  have hres2 : resolveContent w cfg v =
      (.ok rf, (resolveContent w cfg v).2) := by
    rw [← hres]
  refine ⟨?_, ?_, ?_, ?_, ?_, rfl, rfl, ?_, fun p => rfl,
    resolveContent_events w cfg v⟩
  · rw [runNode_succ,
      stepNode_code_branch w (runRec w f) cfg dp n v rf
        (resolveContent w cfg v).2 hm hattr hres2 hext,
      spliceReplacement_one]
  · intro lang meta
    exact ⟨rfl, rfl, rfl, rfl⟩
  · intro l ext hl
    simp [langOrExt, jsTruthy, hl]
  · intro ext
    constructor
    · simp [langOrExt, jsTruthy]
    · simp [langOrExt, jsTruthy]
  · intro m hm2
    simp [metaOrNull, jsTruthy, hm2]
  · intro hv
    simp [codeValue, hv]

theorem claim_c4_witness :
    isSnippetMarker cfg7 m2 = true ∧
    (findAttr (m2.attributes.getD []) cfg7.fileAttribute).bind
      (fun a => a.value) = some "a.js" ∧
    (resolveContent w2 cfg7 "a.js").1 =
      .ok ⟨"console.log(1)", pathJoin cfg7.snippetsDir "a.js"⟩ ∧
    isMarkdownExtension (getFileExtension "a.js") = false ∧
    runNode w2 cfg7 1 "doc.mdx" m2 =
      (objectAssign (m2.withChildren (stepKids (runRec w2 0) cfg7 "doc.mdx" m2).1)
         (buildCodeNode
           ((findAttr (m2.attributes.getD []) "lang").bind fun a => a.value)
           ((findAttr (m2.attributes.getD []) "meta").bind fun a => a.value)
           (getFileExtension "a.js")
           ⟨"console.log(1)", pathJoin cfg7.snippetsDir "a.js"⟩),
       (stepKids (runRec w2 0) cfg7 "doc.mdx" m2).2 ++
         (resolveContent w2 cfg7 "a.js").2) :=
  ⟨by decide, by decide, by decide, by decide,
   (claim_c4_code_block_amended w2 cfg7 "doc.mdx" 0 m2 "a.js"
     ⟨"console.log(1)", pathJoin cfg7.snippetsDir "a.js"⟩
     (by decide) (by decide) (by decide) (by decide)).1⟩

/-- C6: a reference is treated as remote exactly when it begins with
`http://` or `https://`; remote resolution is the single GET of
`fetchRemoteContent` while any other reference is a filesystem read of the
joined path; the GET fails exactly on transport error or non-2xx status, in
both cases with one descriptive error carrying the URL and the underlying
cause or status text, and on success the URL itself is the source identifier
of the resolved content. -/
theorem claim_c6_remote_resolution (w : World) (url : String) :
    (∀ v : String, isRemoteRef v =
      (strStarts v "http://" || strStarts v "https://")) ∧
    (∀ (cfg : Config) (v : String), isRemoteRef v = true →
      resolveContent w cfg v = fetchRemoteContent w v) ∧
    (∀ (cfg : Config) (v : String), isRemoteRef v = false →
      resolveContent w cfg v =
        ((w.readFile (pathJoin cfg.snippetsDir v)).map
           (fun c => ⟨c, pathJoin cfg.snippetsDir v⟩),
         [.readReq (pathJoin cfg.snippetsDir v)])) ∧
    (fetchRemoteContent w url).2 = [.fetchReq url] ∧
    (∀ msg : String, w.fetchUrl url = .transportError msg →
      (fetchRemoteContent w url).1 =
        .error ("Failed to fetch remote content from " ++ url ++ ": " ++ msg) ∧
      strContains
        ("Failed to fetch remote content from " ++ url ++ ": " ++ msg)
        url = true ∧
      strContains
        ("Failed to fetch remote content from " ++ url ++ ": " ++ msg)
        msg = true) ∧
    (∀ (status : Nat) (statusText body : String),
      w.fetchUrl url = .response status statusText body →
      ((200 ≤ status ∧ status ≤ 299) →
        (fetchRemoteContent w url).1 = .ok ⟨body, url⟩) ∧
      (¬(200 ≤ status ∧ status ≤ 299) →
        (fetchRemoteContent w url).1 =
          .error ("Failed to fetch remote content from " ++ url ++ ": " ++
            ("HTTP " ++ toString status ++ ": " ++ statusText)) ∧
        strContains
          ("Failed to fetch remote content from " ++ url ++ ": " ++
            ("HTTP " ++ toString status ++ ": " ++ statusText)) url = true ∧
        strContains
          ("Failed to fetch remote content from " ++ url ++ ": " ++
            ("HTTP " ++ toString status ++ ": " ++ statusText))
          statusText = true ∧
        strContains
          ("Failed to fetch remote content from " ++ url ++ ": " ++
            ("HTTP " ++ toString status ++ ": " ++ statusText))
          (toString status) = true)) := by
  refine ⟨?_, ?_, ?_, rfl, ?_, ?_⟩
  · intro v
    cases h1 : strStarts v "https://" <;> cases h2 : strStarts v "http://" <;>
      simp [isRemoteRef, h1, h2]
  · intro cfg v h
    simp [resolveContent, h]
  · intro cfg v h
    simp [resolveContent, h]
  · intro msg hf
    refine ⟨?_, ?_, ?_⟩
    · simp [fetchRemoteContent, hf]
    · apply strContains_append_l
      apply strContains_append_l
      apply strContains_append_r
      exact strContains_self url
    · apply strContains_append_r
      exact strContains_self msg
  · intro status statusText body hf
    constructor
    · intro hok
      simp [fetchRemoteContent, hf, hok]
    · intro hbad
      refine ⟨?_, ?_, ?_, ?_⟩
      · simp [fetchRemoteContent, hf, hbad]
      · apply strContains_append_l
        apply strContains_append_l
        apply strContains_append_r
        exact strContains_self url
      · apply strContains_append_r
        apply strContains_append_r
        exact strContains_self statusText
      · apply strContains_append_r
        apply strContains_append_l
        apply strContains_append_l
        apply strContains_append_r
        exact strContains_self _

theorem claim_c6_witness :
    isRemoteRef "http://h/x.md" = true ∧
    w6.fetchUrl "http://h/x.md" = .response 404 "Not Found" "" ∧
    ¬(200 ≤ 404 ∧ 404 ≤ 299) ∧
    (resolveContent w6 cfg7 "http://h/x.md" =
       fetchRemoteContent w6 "http://h/x.md" ∧
     (fetchRemoteContent w6 "http://h/x.md").2 =
       [.fetchReq "http://h/x.md"] ∧
     (fetchRemoteContent w6 "http://h/x.md").1 =
       .error ("Failed to fetch remote content from " ++ "http://h/x.md" ++
         ": " ++ ("HTTP " ++ toString 404 ++ ": " ++ "Not Found")) ∧
     strContains
       ("Failed to fetch remote content from " ++ "http://h/x.md" ++ ": " ++
         ("HTTP " ++ toString 404 ++ ": " ++ "Not Found"))
       "http://h/x.md" = true) := by
  have hc := claim_c6_remote_resolution w6 "http://h/x.md"
  have hresp := hc.2.2.2.2.2 404 "Not Found" "" (by decide)
  have hbad := hresp.2 (by decide)
  exact ⟨by decide, by decide, by decide,
    hc.2.1 cfg7 "http://h/x.md" (by decide), hc.2.2.2.1,
    hbad.1, hbad.2.1⟩

theorem recursiveConfig_eq (cfg : Config) : recursiveConfig cfg = cfg := rfl

theorem stepNode_local_markdown_parsefail (w : World)
    (rec2 : Config → String → List Node → List Node × List Event)
    (cfg : Config) (dp : String) (n : Node) (v : String)
    (rf : ResolvedFile) (evR : List Event) (e : String)
    (hm : isSnippetMarker cfg n = true)
    (hattr : (findAttr (n.attributes.getD []) cfg.fileAttribute).bind
      (fun a => a.value) = some v)
    (hres : resolveContent w cfg v = (.ok rf, evR))
    (hext : isMarkdownExtension (getFileExtension v) = true)
    (hrem : isRemoteRef v = false)
    (hparse : w.parse (localSnippetGrammar cfg) rf.value = .error e) :
    stepNode w rec2 cfg dp n =
      (n.withChildren (stepKids rec2 cfg dp n).1,
       (stepKids rec2 cfg dp n).2 ++
         (evR ++ [.parseEv (localSnippetGrammar cfg) rf.value]) ++
         [.error (readErrorMsg dp n.position false
           (pathJoin cfg.snippetsDir v) e)]) := by
  simp [stepNode, stepKids, hm, hattr, hres, hext, hrem, hparse]

theorem stepNode_readReq (w : World)
    (rec2 : Config → String → List Node → List Node × List Event)
    (cfg : Config) (dp : String) (n : Node)
    (hrec : ∀ (d : String) (l : List Node) (p : String),
      Event.readReq p ∈ (rec2 cfg d l).2 → ∃ v, p = pathJoin cfg.snippetsDir v) :
    ∀ p : String, Event.readReq p ∈ (stepNode w rec2 cfg dp n).2 →
      ∃ v, p = pathJoin cfg.snippetsDir v := by
  intro p hp
  have hkids : Event.readReq p ∈ (stepKids rec2 cfg dp n).2 →
      ∃ v, p = pathJoin cfg.snippetsDir v := by
    intro h
    cases hc : n.children with
    | none => rw [stepKids, hc] at h; simp at h
    | some kids =>
      rw [stepKids, hc] at h
      exact hrec dp kids p h
  have hresEv : ∀ v : String,
      Event.readReq p ∈ (resolveContent w cfg v).2 →
      ∃ u, p = pathJoin cfg.snippetsDir u := by
    intro v h
    rw [resolveContent_events] at h
    by_cases hr : isRemoteRef v = true
    · rw [if_pos hr] at h
      simp at h
    · rw [if_neg hr] at h
      simp at h
      exact ⟨v, h⟩
  by_cases hm : isSnippetMarker cfg n = true
  · cases hattr : (findAttr (n.attributes.getD []) cfg.fileAttribute).bind
        (fun a => a.value) with
    | none =>
      rw [stepNode_missing_attr w rec2 cfg dp n hm hattr] at hp
      simp at hp
      exact hkids hp
    | some v =>
      cases hres : (resolveContent w cfg v).1 with
      | error cause =>
        have hres2 : resolveContent w cfg v =
            (.error cause, (resolveContent w cfg v).2) := by rw [← hres]
        rw [stepNode_resolve_error w rec2 cfg dp n v cause
          (resolveContent w cfg v).2 hm hattr hres2] at hp
        simp at hp
        rcases hp with h | h
        · exact hkids h
        · exact hresEv v h
      | ok rf =>
        have hres2 : resolveContent w cfg v =
            (.ok rf, (resolveContent w cfg v).2) := by rw [← hres]
        by_cases hext : isMarkdownExtension (getFileExtension v) = true
        · by_cases hrem : isRemoteRef v = true
          · cases hparse : w.parse (remoteBasicGrammar cfg) rf.value with
            | ok kids2 =>
              rw [stepNode_remote_markdown w rec2 cfg dp n v rf
                (resolveContent w cfg v).2 kids2 hm hattr hres2 hext hrem
                hparse] at hp
              simp at hp
              rcases hp with h | h | h
              · exact hkids h
              · exact hresEv v h
              · rw [recursiveConfig_eq] at h
                exact hrec rf.path kids2 p h
            | error e =>
              rw [stepNode_remote_markdown_parsefail w rec2 cfg dp n v rf
                (resolveContent w cfg v).2 e hm hattr hres2 hext hrem
                hparse] at hp
              simp at hp
              rcases hp with h | h
              · exact hkids h
              · exact hresEv v h
          · have hrem2 : isRemoteRef v = false := by
              cases h2 : isRemoteRef v
              · rfl
              · exact absurd h2 hrem
            cases hparse : w.parse (localSnippetGrammar cfg) rf.value with
            | ok kids2 =>
              rw [stepNode_local_markdown w rec2 cfg dp n v rf
                (resolveContent w cfg v).2 kids2 hm hattr hres2 hext hrem2
                hparse] at hp
              simp at hp
              rcases hp with h | h | h
              · exact hkids h
              · exact hresEv v h
              · rw [recursiveConfig_eq] at h
                exact hrec rf.path kids2 p h
            | error e =>
              rw [stepNode_local_markdown_parsefail w rec2 cfg dp n v rf
                (resolveContent w cfg v).2 e hm hattr hres2 hext hrem2
                hparse] at hp
              simp at hp
              rcases hp with h | h
              · exact hkids h
              · exact hresEv v h
        · have hext2 : isMarkdownExtension (getFileExtension v) = false := by
            cases h2 : isMarkdownExtension (getFileExtension v)
            · rfl
            · exact absurd h2 hext
          rw [stepNode_code_branch w rec2 cfg dp n v rf
            (resolveContent w cfg v).2 hm hattr hres2 hext2] at hp
          simp at hp
          rcases hp with h | h
          · exact hkids h
          · exact hresEv v h
  · have hm2 : isSnippetMarker cfg n = false := by
      cases h2 : isSnippetMarker cfg n
      · rfl
      · exact absurd h2 hm
    rw [stepNode_nonmarker w rec2 cfg dp n hm2] at hp
    exact hkids hp

theorem runList_readReq (w : World) (cfg : Config) :
    ∀ (fuel : Nat) (dp : String) (ns : List Node) (p : String),
      Event.readReq p ∈ (runList w cfg fuel dp ns).2 →
      ∃ v, p = pathJoin cfg.snippetsDir v := by
  intro fuel
  induction fuel with
  | zero => intro dp ns p hp; simp [runList] at hp
  | succ f ih =>
    intro dp ns p hp
    simp only [runList, List.map_map, List.mem_flatten, List.mem_map] at hp
    obtain ⟨evs, ⟨m, hmem, hev⟩, hin⟩ := hp
    subst hev
    exact stepNode_readReq w (runRec w f) cfg dp m
      (fun d l q hq => ih d l q hq) p hin

theorem readReqPaths_mem (evs : List Event) (p : String) :
    p ∈ readReqPaths evs ↔ Event.readReq p ∈ evs := by
  induction evs with
  | nil => simp [readReqPaths]
  | cons e es ih =>
    rw [readReqPaths] at ih ⊢
    cases e <;> simp [List.filterMap_cons, ih]

/-- C9: the options object handed to every recursive invocation is the
original configuration unchanged, so at every nesting depth a relative local
reference is resolved by joining the original snippetsDir with the reference:
universally, every file path the transform ever reads is
`pathJoin cfg.snippetsDir v` for some reference `v`; and in a concrete
two-level document (custom element name `Inc`, custom attribute `src`,
snippet `sub/a.mdx` living in a subdirectory and itself referencing `x.md`)
the nested reference is read from the original snippets root, not from the
including file's directory, the nested marker is matched with the same
element and attribute names, and the innermost content reaches the tree. -/
theorem claim_c9_config_propagation :
    (∀ cfg : Config, recursiveConfig cfg = cfg) ∧
    (∀ (w : World) (cfg : Config) (fuel : Nat) (dp : String) (ns : List Node)
       (p : String), p ∈ readReqPaths (runList w cfg fuel dp ns).2 →
       ∃ v, p = pathJoin cfg.snippetsDir v) ∧
    readReqPaths (transformDoc w9 cfg9 4 "doc.mdx" root9).2 =
      [pathJoin cfg9.snippetsDir "sub/a.mdx", pathJoin cfg9.snippetsDir "x.md"] ∧
    treeHasValueStr 10 (transformDoc w9 cfg9 4 "doc.mdx" root9).1
      "X_CONTENT" = true := by
  refine ⟨fun _ => rfl, ?_, by decide, by decide⟩
  intro w cfg fuel dp ns p hp
  exact runList_readReq w cfg fuel dp ns p ((readReqPaths_mem _ p).mp hp)

theorem claim_c9_witness :
    (pathJoin cfg9.snippetsDir "x.md") ∈
      readReqPaths (runList w9 cfg9 4 "doc.mdx" [root9]).2 ∧
    ∃ v, pathJoin cfg9.snippetsDir "x.md" = pathJoin cfg9.snippetsDir v :=
  ⟨by decide,
   claim_c9_config_propagation.2.1 w9 cfg9 4 "doc.mdx" [root9]
     (pathJoin cfg9.snippetsDir "x.md") (by decide)⟩

/-- C3 counterexample: marker A references the remote markdown document
`http://h/a.md`, whose fetched body contains marker B referencing local
`b.md`, whose content is the literal `C_CONTENT`.  The fetch succeeds, B's
file resolves, and the parser recognises the marker whenever the mdx grammar
is enabled — yet the fully transformed tree does not contain `C_CONTENT`,
because the remote branch re-parses the fetched body without the marker
grammar (no `remarkMdx`), so B is never recognised.  This falsifies the claim
for a remote A. -/
theorem claim_c3_counterexample :
    w3.fetchUrl "http://h/a.md" = .response 200 "OK" "AB_SRC" ∧
    (resolveContent w3 cfg3 "b.md").1 =
      .ok ⟨"C_SRC", pathJoin "/S" "b.md"⟩ ∧
    (remoteBasicGrammar cfg3).mdx = false ∧
    treeHasValueStr 10 (transformDoc w3 cfg3 5 "doc.mdx" rootR3).1
      "C_CONTENT" = false := by
  decide

/-- C3 amended: nested inclusion is transitive when every inclusion that
itself contains a nested marker is a local reference: local content is
re-parsed with the full grammar including the marker element's own grammar
(`remarkMdx`) and the engine is recursively re-invoked with the identical
configuration, so a chain ending in a remote leaf also works.  Content fetched
from a remote URL, however, is re-parsed without the marker grammar (with the
default processor both remote grammars disable mdx), so a marker nested
inside remote content is not recognised and that chain stops there. -/
theorem claim_c3_nesting_amended :
    (∀ cfg : Config, (localSnippetGrammar cfg).mdx = true) ∧
    (∀ cfg : Config, cfg.processor = none →
      (remoteGfmGrammar cfg).mdx = false ∧
      (remoteBasicGrammar cfg).mdx = false) ∧
    treeHasValueStr 10 (transformDoc w3 cfg3 5 "doc.mdx" rootL3).1
      "C_CONTENT" = true ∧
    treeHasValueStr 10 (transformDoc w3 cfg3 5 "doc.mdx" rootL23).1
      "C_CONTENT" = true ∧
    treeHasValueStr 10 (transformDoc w3 cfg3 5 "doc.mdx" rootR3).1
      "C_CONTENT" = false := by
  refine ⟨fun cfg => rfl, ?_, by decide, by decide, by decide⟩
  intro cfg h
  constructor
  · show (Grammar.mk true (baseGrammar cfg).mdx).mdx = false
    rw [baseGrammar, h]
    rfl
  · show (baseGrammar cfg).mdx = false
    rw [baseGrammar, h]
    rfl

theorem claim_c3_witness :
    (cfg3.processor = none) ∧
    ((localSnippetGrammar cfg3).mdx = true ∧
     (remoteGfmGrammar cfg3).mdx = false ∧
     (remoteBasicGrammar cfg3).mdx = false) :=
  ⟨rfl,
   claim_c3_nesting_amended.1 cfg3,
   (claim_c3_nesting_amended.2.1 cfg3 rfl).1,
   (claim_c3_nesting_amended.2.1 cfg3 rfl).2⟩

/-- C8: evaluation of the code at the failing input.  For a remote
markdown-like inclusion whose fetch succeeds, the `try` block raises
`ReferenceError: VFile is not defined` when constructing the VFile (the
module has no runtime binding for `VFile`), so the GFM-enabled parse never
runs: the event trace shows the single GET, then the fallback warning with
exactly that cause, then a parse with the minimal grammar only — on every
remote markdown inclusion, not merely when a richer parse fails.  The
fallback itself does not raise and processing continues with the
minimal-grammar result; and when the minimal parse itself fails, that failure
surfaces as this marker's `Error reading snippet file` diagnostic with the
parse error as cause, the marker staying unexpanded. -/
theorem claim_c8_gfm_fallback_behavior :
    newVFileResult = .error "VFile is not defined" ∧
    (runNode w8 cfg8 2 "doc.mdx" m8).2 =
      [.fetchReq "http://h/a.md",
       .warnStr gfmFallbackWarning "VFile is not defined",
       .parseEv (remoteBasicGrammar cfg8) "HELLO_SRC"] ∧
    (remoteBasicGrammar cfg8).gfm = false ∧
    (runNode w8 cfg8 2 "doc.mdx" m8).1.type = "text" ∧
    (runNode w8 cfg8 2 "doc.mdx" m8).1.value = some (.str "HELLO") ∧
    (runNode w8b cfg8 2 "doc.mdx" m8).2 =
      [.fetchReq "http://h/a.md",
       .warnStr gfmFallbackWarning "VFile is not defined",
       .parseEv (remoteBasicGrammar cfg8) "HELLO_SRC",
       .error (readErrorMsg "doc.mdx" (some ⟨2, 5⟩) true "http://h/a.md"
         "boom")] ∧
    (runNode w8b cfg8 2 "doc.mdx" m8).1.type = "mdxJsxFlowElement" ∧
    (runNode w8b cfg8 2 "doc.mdx" m8).1.attributes =
      some [⟨"file", some "http://h/a.md"⟩] := by
  refine ⟨rfl, rfl, rfl, by decide, by decide, rfl, by decide, by decide⟩

theorem lastIdx_none_spec (c : Char) :
    ∀ (l : List Char), lastIdx l c = none → ∀ j : Nat, l[j]? ≠ some c := by
  intro l
  induction l with
  | nil => intro _ j; simp
  | cons a as ih =>
    intro h j
    simp only [lastIdx] at h
    cases has : lastIdx as c with
    | some i => rw [has] at h; simp at h
    | none =>
      rw [has] at h
      by_cases hac : a = c
      · simp [hac] at h
      · cases j with
        | zero => simp [hac]
        | succ j2 => simpa using ih has j2

theorem lastIdx_some_get (c : Char) :
    ∀ (l : List Char) (i : Nat), lastIdx l c = some i → l[i]? = some c := by
  intro l
  induction l with
  | nil => intro i h; simp [lastIdx] at h
  | cons a as ih =>
    intro i h
    simp only [lastIdx] at h
    cases has : lastIdx as c with
    | some i2 =>
      rw [has] at h
      injection h with h2
      subst h2
      simpa using ih i2 has
    | none =>
      rw [has] at h
      by_cases hac : a = c
      · rw [if_pos hac] at h
        injection h with h2
        subst h2
        simp [hac]
      · rw [if_neg hac] at h
        cases h

theorem lastIdx_some_last (c : Char) :
    ∀ (l : List Char) (i : Nat), lastIdx l c = some i →
      ∀ j : Nat, i < j → l[j]? ≠ some c := by
  intro l
  induction l with
  | nil => intro i h; simp [lastIdx] at h
  | cons a as ih =>
    intro i h j hij
    simp only [lastIdx] at h
    cases has : lastIdx as c with
    | some i2 =>
      rw [has] at h
      injection h with h2
      subst h2
      cases j with
      | zero => omega
      | succ j2 =>
        simpa using ih i2 has j2 (by omega)
    | none =>
      rw [has] at h
      by_cases hac : a = c
      · rw [if_pos hac] at h
        injection h with h2
        subst h2
        cases j with
        | zero => omega
        | succ j2 => simpa using lastIdx_none_spec c as has j2
      · rw [if_neg hac] at h
        cases h

theorem lastIdx_le (c : Char) :
    ∀ (l : List Char) (j : Nat), l[j]? = some c →
      ∃ i, lastIdx l c = some i ∧ j ≤ i := by
  intro l
  induction l with
  | nil => intro j h; simp at h
  | cons a as ih =>
    intro j h
    cases j with
    | zero =>
      simp at h
      cases has : lastIdx as c with
      | some i2 => exact ⟨i2 + 1, by simp [lastIdx, has], by omega⟩
      | none => exact ⟨0, by simp [lastIdx, has, h], by omega⟩
    | succ j2 =>
      simp only [List.getElem?_cons_succ] at h
      obtain ⟨i2, hi2, hle⟩ := ih j2 h
      exact ⟨i2 + 1, by simp [lastIdx, hi2], by omega⟩

theorem getLast_eq_of_mem_max :
    ∀ (L : List Nat), L.Pairwise (· < ·) → ∀ d : Nat, d ∈ L →
      (∀ x ∈ L, x ≤ d) → L.getLast? = some d := by
  intro L
  induction L with
  | nil => intro _ d hd; cases hd
  | cons a t ih =>
    intro hs d hd hmax
    cases t with
    | nil =>
      simp at hd
      simp [hd]
    | cons b t2 =>
      rw [List.getLast?_cons_cons]
      have hab : a < b := (List.pairwise_cons.mp hs).1 b (by simp)
      have hd2 : d ∈ b :: t2 := by
        cases hd with
        | head =>
          exfalso
          have := hmax b (by simp)
          omega
        | tail _ h => exact h
      exact ih (List.pairwise_cons.mp hs).2 d hd2
        (fun x hx => hmax x (List.mem_cons_of_mem a hx))

theorem getFileExtension_of_none (s : String)
    (h : lastIdx s.data '.' = none) : getFileExtension s = "" := by
  simp only [getFileExtension]
  rw [show jsLastIndexOf s.data '.' = -1 from by rw [jsLastIndexOf, h]]
  rw [if_pos (Or.inl rfl)]

theorem getFileExtension_of_cut (s : String) (d : Nat)
    (h : lastIdx s.data '.' = some d)
    (hlt : Int.ofNat d <
      max (jsLastIndexOf s.data '/') (jsLastIndexOf s.data '\\')) :
    getFileExtension s = "" := by
  simp only [getFileExtension]
  rw [show jsLastIndexOf s.data '.' = Int.ofNat d from by rw [jsLastIndexOf, h]]
  rw [if_pos (Or.inr hlt)]

theorem getFileExtension_of_keep (s : String) (d : Nat)
    (h : lastIdx s.data '.' = some d)
    (hge : ¬(Int.ofNat d <
      max (jsLastIndexOf s.data '/') (jsLastIndexOf s.data '\\'))) :
    getFileExtension s = String.mk ((s.data.drop (d + 1)).map Char.toLower) := by
  simp only [getFileExtension]
  rw [show jsLastIndexOf s.data '.' = Int.ofNat d from by rw [jsLastIndexOf, h]]
  rw [if_neg]
  · simp
  · rintro (h1 | h2)
    · cases h1
    · exact hge h2

theorem specExtension_of_nil (s : String)
    (h : (List.range s.data.length).filter (specGoodDot s.data) = []) :
    specExtension s = "" := by
  simp only [specExtension]
  rw [h]
  rfl

theorem specExtension_of_last (s : String) (d : Nat)
    (h : ((List.range s.data.length).filter (specGoodDot s.data)).getLast? =
      some d) :
    specExtension s = String.mk ((s.data.drop (d + 1)).map Char.toLower) := by
  simp only [specExtension]
  rw [h]

theorem getElem_lt_of_some {l : List Char} {k : Nat} {c : Char}
    (h : l[k]? = some c) : k < l.length := by
  rcases List.getElem?_eq_some_iff.mp h with ⟨hk, _⟩
  exact hk

theorem dot_le_last (s : String) (d i : Nat)
    (h : lastIdx s.data '.' = some d) (hi : s.data[i]? = some '.') :
    i ≤ d := by
  by_contra hc
  exact lastIdx_some_last '.' s.data d h i (by omega) hi

theorem spec_filter_nil_of_none (s : String)
    (h : lastIdx s.data '.' = none) :
    (List.range s.data.length).filter (specGoodDot s.data) = [] := by
  rw [List.filter_eq_nil_iff]
  intro i _ hgd
  simp only [specGoodDot, Bool.and_eq_true, decide_eq_true_eq] at hgd
  exact lastIdx_none_spec '.' s.data h i hgd.1

theorem spec_filter_nil_of_cut (s : String) (d : Nat)
    (h : lastIdx s.data '.' = some d)
    (hlt : Int.ofNat d <
      max (jsLastIndexOf s.data '/') (jsLastIndexOf s.data '\\')) :
    (List.range s.data.length).filter (specGoodDot s.data) = [] := by
  have hk : ∃ k : Nat, d < k ∧ ∃ c : Char,
      s.data[k]? = some c ∧ isPathSep c = true := by
    rcases lt_max_iff.mp hlt with h1 | h1
    · cases hsl : lastIdx s.data '/' with
      | none =>
        simp only [jsLastIndexOf, hsl] at h1
        have hnn : (0 : Int) ≤ Int.ofNat d := Int.ofNat_nonneg d
        omega
      | some k =>
        simp only [jsLastIndexOf, hsl] at h1
        exact ⟨k, Int.ofNat_lt.mp h1, '/',
          lastIdx_some_get '/' s.data k hsl, by decide⟩
    · cases hsl : lastIdx s.data '\\' with
      | none =>
        simp only [jsLastIndexOf, hsl] at h1
        have hnn : (0 : Int) ≤ Int.ofNat d := Int.ofNat_nonneg d
        omega
      | some k =>
        simp only [jsLastIndexOf, hsl] at h1
        exact ⟨k, Int.ofNat_lt.mp h1, '\\',
          lastIdx_some_get '\\' s.data k hsl, by decide⟩
  obtain ⟨k, hdk, c, hkc, hsep⟩ := hk
  rw [List.filter_eq_nil_iff]
  intro i _ hgd
  simp only [specGoodDot, Bool.and_eq_true, decide_eq_true_eq,
    List.all_eq_true] at hgd
  obtain ⟨hdot_i, hall⟩ := hgd
  have hid : i ≤ d := dot_le_last s d i h hdot_i
  have hk2 := hall k (List.mem_range.mpr (getElem_lt_of_some hkc))
  rw [hkc] at hk2
  simp only [hsep, Bool.not_true, Bool.or_false, decide_eq_true_eq] at hk2
  omega

theorem spec_last_of_keep (s : String) (d : Nat)
    (h : lastIdx s.data '.' = some d)
    (hge : ¬(Int.ofNat d <
      max (jsLastIndexOf s.data '/') (jsLastIndexOf s.data '\\'))) :
    ((List.range s.data.length).filter (specGoodDot s.data)).getLast? =
      some d := by
  have hget := lastIdx_some_get '.' s.data d h
  apply getLast_eq_of_mem_max
  · exact (List.pairwise_lt_range _).filter _
  · rw [List.mem_filter]
    refine ⟨List.mem_range.mpr (getElem_lt_of_some hget), ?_⟩
    simp only [specGoodDot, Bool.and_eq_true, decide_eq_true_eq,
      List.all_eq_true]
    refine ⟨hget, ?_⟩
    intro j _
    by_cases hji : j ≤ d
    · simp [hji]
    · cases hjc : s.data[j]? with
      | none => simp
      | some c =>
        by_cases hc : isPathSep c = true
        · exfalso
          have hcor : c = '/' ∨ c = '\\' := by
            simpa [isPathSep] using hc
          rcases hcor with rfl | rfl
          · obtain ⟨m, hm, hjm⟩ := lastIdx_le '/' s.data j hjc
            have h1 : jsLastIndexOf s.data '/' = Int.ofNat m := by
              rw [jsLastIndexOf, hm]
            have h3 : Int.ofNat m ≤ Int.ofNat d := by
              have h2 := le_trans
                (le_max_left (jsLastIndexOf s.data '/')
                  (jsLastIndexOf s.data '\\'))
                (not_lt.mp hge)
              rwa [h1] at h2
            have h4 : m ≤ d := Int.ofNat_le.mp h3
            omega
          · obtain ⟨m, hm, hjm⟩ := lastIdx_le '\\' s.data j hjc
            have h1 : jsLastIndexOf s.data '\\' = Int.ofNat m := by
              rw [jsLastIndexOf, hm]
            have h3 : Int.ofNat m ≤ Int.ofNat d := by
              have h2 := le_trans
                (le_max_right (jsLastIndexOf s.data '/')
                  (jsLastIndexOf s.data '\\'))
                (not_lt.mp hge)
              rwa [h1] at h2
            have h4 : m ≤ d := Int.ofNat_le.mp h3
            omega
        · simp [hc]
  · intro x hx
    rw [List.mem_filter] at hx
    have hxd : s.data[x]? = some '.' := by
      have := hx.2
      simp only [specGoodDot, Bool.and_eq_true, decide_eq_true_eq] at this
      exact this.1
    exact dot_le_last s d x h hxd

theorem toLower_idem (c : Char) : c.toLower.toLower = c.toLower := by
  by_cases h : c.toNat ≥ 65 ∧ c.toNat ≤ 90
  · have hv : (c.toNat + 32).isValidChar := Or.inl (by omega)
    have h1 : c.toLower = Char.ofNat (c.toNat + 32) := by
      simp only [Char.toLower]
      rw [if_pos h]
    have hval : (Char.ofNat (c.toNat + 32)).toNat = c.toNat + 32 := by
      unfold Char.ofNat
      rw [dif_pos hv]
      rfl
    have h2 : (Char.ofNat (c.toNat + 32)).toLower = Char.ofNat (c.toNat + 32) := by
      simp only [Char.toLower]
      rw [if_neg]
      rw [hval]
      omega
    rw [h1, h2]
  · have h1 : c.toLower = c := by
      simp only [Char.toLower]
      rw [if_neg h]
    rw [h1, h1]

theorem map_toLower_idem (l : List Char) :
    (l.map Char.toLower).map Char.toLower = l.map Char.toLower := by
  rw [List.map_map]
  exact List.map_congr_left fun c _ => toLower_idem c

theorem getFileExtension_lower (s : String) :
    (getFileExtension s).data.map Char.toLower = (getFileExtension s).data := by
  simp only [getFileExtension]
  split
  · rfl
  · exact map_toLower_idem _

theorem ciEq_lower_iff (t u : String)
    (ht : t.data.map Char.toLower = t.data)
    (hu : u.data.map Char.toLower = u.data) :
    (ciEq t u = true ↔ t = u) := by
  simp only [ciEq, beq_iff_eq, ht, hu]
  exact ⟨fun h => String.ext h, fun h => by rw [h]⟩

/-- C5: the extension classifier agrees with the specification's description —
for every source name it returns the lowercased substring after the last dot
that occurs after the last path separator, or the empty tag when no such dot
exists (`getFileExtension` equals the independently stated `specExtension`);
and the content is classified markdown-like exactly when that tag compares
case-insensitively equal to `md` or `mdx`.  Both classifiers are pure Lean
functions of the string alone, which is the embedding of "no I/O, no side
effects". -/
theorem claim_c5_extension_classifier :
    (∀ s : String, getFileExtension s = specExtension s) ∧
    (∀ s : String,
      isMarkdownExtension (getFileExtension s) = true ↔
        (ciEq (getFileExtension s) "md" = true ∨
         ciEq (getFileExtension s) "mdx" = true)) := by
  constructor
  · intro s
    cases hdot : lastIdx s.data '.' with
    | none =>
      rw [getFileExtension_of_none s hdot,
        specExtension_of_nil s (spec_filter_nil_of_none s hdot)]
    | some d =>
      by_cases hS : Int.ofNat d <
          max (jsLastIndexOf s.data '/') (jsLastIndexOf s.data '\\')
      · rw [getFileExtension_of_cut s d hdot hS,
          specExtension_of_nil s (spec_filter_nil_of_cut s d hdot hS)]
      · rw [getFileExtension_of_keep s d hdot hS,
          specExtension_of_last s d (spec_last_of_keep s d hdot hS)]
  · intro s
    have hlow := getFileExtension_lower s
    have hmd := ciEq_lower_iff (getFileExtension s) "md" hlow (by decide)
    have hmdx := ciEq_lower_iff (getFileExtension s) "mdx" hlow (by decide)
    simp only [isMarkdownExtension, Bool.or_eq_true, beq_iff_eq, hmd, hmdx]

theorem claim_c5_witness :
    getFileExtension "dir/file.MDX" = specExtension "dir/file.MDX" ∧
    getFileExtension "dir/file.MDX" = "mdx" ∧
    (isMarkdownExtension (getFileExtension "dir/file.MDX") = true ↔
      (ciEq (getFileExtension "dir/file.MDX") "md" = true ∨
       ciEq (getFileExtension "dir/file.MDX") "mdx" = true)) :=
  ⟨claim_c5_extension_classifier.1 "dir/file.MDX", by decide,
   claim_c5_extension_classifier.2 "dir/file.MDX"⟩
